import Mathlib

/-!
Verification development for the image-detection repository.

The repository is TypeScript running on Node; the parts the claims touch are
embedded shallowly here:

* the in-memory analysis cache (`src/lib/ai-generation-detection.ts`,
  `generateImageHash` / `hasAnalysisInCache` / `getAnalysisFromCache` /
  `storeAnalysisInCache`) — a JavaScript `Map` is modelled as an
  insertion-ordered association list with unique keys;
* the rolling 32-bit hash over the first 1000 base64 characters of the
  upload, together with Node's base64 encoder;
* the artifact-threshold tail of `detectAIGeneratedImage` (same file);
* the upload `POST` handler and the status-check `GET` handler of the
  detect route, with every `await`ed effect (the downstream analysis, the
  network probes, `Math.random()`) passed in as an explicit input;
* the error fallbacks of `classifyImage`
  (`src/lib/advanced-image-classifier.ts`),
  `generateStableDiffusionComparison`
  (`src/lib/stable-diffusion-integration.ts`) and `sendToBackend`
  (enhanced-detection module).

JavaScript numbers are modelled as `ℚ` (all quantities involved are exact
small rationals), 32-bit integer coercions as explicit `% 2 ^ 32`
arithmetic on `ℤ`.
-/

/-! ## The JavaScript Map model and the analysis cache -/

variable {α : Type}

/-- A JavaScript `Map` in insertion order: an association list whose keys are
unique, oldest entry first, newest entry last. -/
abbrev JsMap (α : Type) := List (String × α)

/-- Embedding of `Map.prototype.has`. -/
def mapHas (m : JsMap α) (k : String) : Bool :=
  m.any fun p => p.1 == k

/-- Embedding of `Map.prototype.get`: the value at the matching key, `undefined` (`none`)
when absent. -/
def mapGet (m : JsMap α) (k : String) : Option α :=
  (m.find? fun p => p.1 == k).map Prod.snd

/-- Embedding of `Map.prototype.set`: update in place (keeping the insertion position) when
the key is present, append at the end otherwise. -/
def mapSet (m : JsMap α) (k : String) (v : α) : JsMap α :=
  if mapHas m k then m.map fun p => if p.1 == k then (k, v) else p
  else m ++ [(k, v)]

/-- Embedding of `Map.prototype.delete`: removes the entry with the given key.  Keys of a
`Map` are unique, so deleting the first matching entry is the exact
behaviour. -/
def mapDelete (m : JsMap α) (k : String) : JsMap α :=
  m.eraseP fun p => p.1 == k

/-- Function `hasAnalysisInCache` from `src/lib/ai-generation-detection.ts`. -/
def hasAnalysisInCache (cache : JsMap α) (imageHash : String) : Bool :=
  mapHas cache imageHash

/-- Function `getAnalysisFromCache` from `src/lib/ai-generation-detection.ts`. -/
def getAnalysisFromCache (cache : JsMap α) (imageHash : String) : Option α :=
  mapGet cache imageHash

/-- Function `storeAnalysisInCache` from `src/lib/ai-generation-detection.ts`: `set`
the pair, then, when the size exceeds 100, delete the first key returned by
`cache.keys().next()` — the head of the insertion order. -/
def storeAnalysisInCache (cache : JsMap α) (imageHash : String) (result : α) :
    JsMap α :=
  let c := mapSet cache imageHash result
  if 100 < c.length then
    match c.head? with
    | some first => mapDelete c first.1
    | none => c
  else c

/-- Function `clearAnalysisCache` from `src/lib/ai-generation-detection.ts`. -/
def clearAnalysisCache (_cache : JsMap α) : JsMap α := []

/-! ### Basic lemmas about the Map model -/

theorem length_mapSet (m : JsMap α) (k : String) (v : α) :
    (mapSet m k v).length = if mapHas m k then m.length else m.length + 1 := by
  unfold mapSet
  split <;> simp

theorem mapGet_mapSet_self (m : JsMap α) (k : String) (v : α) :
    mapGet (mapSet m k v) k = some v := by
  unfold mapSet
  split
  · rename_i hhas
    unfold mapHas at hhas
    unfold mapGet
    induction m with
    | nil => simp at hhas
    | cons p rest ih =>
      by_cases hp : (p.1 == k) = true
      · rw [List.map_cons, if_pos hp]
        simp [List.find?_cons]
      · have hrest : (rest.any fun q => q.1 == k) = true := by
          simp only [List.any_cons, Bool.or_eq_true] at hhas
          exact hhas.resolve_left hp
        have hp' : (p.1 == k) = false := by simpa using hp
        rw [List.map_cons, if_neg hp]
        simp only [List.find?_cons, hp']
        exact ih hrest
  · rename_i hhas
    unfold mapGet
    rw [List.find?_append]
    have hnone : (m.find? fun p => p.1 == k) = none := by
      rw [List.find?_eq_none]
      intro x hx
      intro hbeq
      exact hhas (by unfold mapHas; rw [List.any_eq_true]; exact ⟨x, hx, hbeq⟩)
    simp [hnone]

theorem mem_mapSet (m : JsMap α) (k : String) (v : α) (p : String × α)
    (hp : p ∈ mapSet m k v) : p ∈ m ∨ p = (k, v) := by
  unfold mapSet at hp
  split at hp
  · rw [List.mem_map] at hp
    obtain ⟨q, hq, hqe⟩ := hp
    by_cases h : (q.1 == k) = true
    · right; rw [← hqe]; simp [h]
    · left
      rw [← hqe]
      simpa [h] using hq
  · rw [List.mem_append] at hp
    rcases hp with h | h
    · exact Or.inl h
    · right; simpa using h

/-! ## Node base64 encoding and generateImageHash -/

/-- The RFC 4648 base64 alphabet used by Node `Buffer.toString`. -/
def base64Table : List Char :=
  "ABCDEFGHIJKLMNOPQRSTUVWXYZabcdefghijklmnopqrstuvwxyz0123456789+/".toList

/-- Character for one 6-bit group (the index is always below 64). -/
def b64char (n : Nat) : Char := base64Table.getD n 'A'

/-- Node `Buffer.toString` with base64: three input bytes become four
alphabet characters; a trailing group of one or two bytes is padded with
equals signs. -/
def base64Encode : List Nat → List Char
  | [] => []
  | [a] => [b64char (a / 4), b64char (a % 4 * 16), '=', '=']
  | [a, b] =>
    [b64char (a / 4), b64char (a % 4 * 16 + b / 16), b64char (b % 16 * 4), '=']
  | a :: b :: c :: rest =>
    b64char (a / 4) :: b64char (a % 4 * 16 + b / 16) ::
      b64char (b % 16 * 4 + c / 64) :: b64char (c % 64) :: base64Encode rest

/-- The ToInt32 coercion JavaScript applies to operands and results of
bitwise operators. -/
def toInt32 (n : ℤ) : ℤ := (n + 2 ^ 31) % 2 ^ 32 - 2 ^ 31

/-- One iteration of the `generateImageHash` loop:
`hash = (hash << 5) - hash + char` followed by `hash = hash & hash`
(the latter is the ToInt32 coercion). -/
def hashStep (h : ℤ) (c : Nat) : ℤ := toInt32 (toInt32 (h * 32) - h + c)

/-- The whole loop of `generateImageHash` over the character codes. -/
def hashChars (l : List Char) : ℤ :=
  l.foldl (fun h ch => hashStep h ch.toNat) 0

/-- Lowercase hexadecimal digits used by `Number.prototype.toString(16)`. -/
def hexDigit (n : Nat) : Char := "0123456789abcdef".toList.getD n '0'

/-- Accumulator loop producing the hexadecimal digits of a natural number. -/
def natToHexAux (n : Nat) (acc : List Char) : List Char :=
  if h : n = 0 then acc
  else natToHexAux (n / 16) (hexDigit (n % 16) :: acc)
termination_by n
decreasing_by exact Nat.div_lt_self (Nat.pos_of_ne_zero h) (by norm_num)

/-- Hexadecimal rendering of a natural number, `"0"` for zero. -/
def natToHex (n : Nat) : String :=
  if n = 0 then "0" else String.mk (natToHexAux n [])

/-- JavaScript `toString(16)` on an integer: a minus sign followed by the
hexadecimal rendering of the absolute value when negative. -/
def intToHexString (i : ℤ) : String :=
  if i < 0 then "-" ++ natToHex i.natAbs else natToHex i.natAbs

/-- Function `generateImageHash` from `src/lib/ai-generation-detection.ts`: the
rolling 32-bit hash of the first 1000 characters of the base64 rendering of
the buffer, printed in hexadecimal. -/
def generateImageHash (buffer : List Nat) : String :=
  intToHexString (hashChars ((base64Encode buffer).take 1000))

/-- The first `4 * n` base64 characters depend only on the first `3 * n`
bytes, as long as both inputs reach that length. -/
theorem base64Encode_take (n : Nat) :
    ∀ l1 l2 : List Nat, l1.take (3 * n) = l2.take (3 * n) →
      3 * n ≤ l1.length → 3 * n ≤ l2.length →
      (base64Encode l1).take (4 * n) = (base64Encode l2).take (4 * n) := by
  induction n with
  | zero => intro l1 l2 _ _ _; simp
  | succ m ih =>
    intro l1 l2 htake h1 h2
    obtain ⟨a, b, c, r1, rfl⟩ : ∃ a b c r, l1 = a :: b :: c :: r := by
      rcases l1 with _ | ⟨a, _ | ⟨b, _ | ⟨c, r⟩⟩⟩
      · simp only [List.length_nil] at h1; omega
      · simp only [List.length_cons, List.length_nil] at h1; omega
      · simp only [List.length_cons, List.length_nil] at h1; omega
      · exact ⟨a, b, c, r, rfl⟩
    obtain ⟨a', b', c', r2, rfl⟩ : ∃ a b c r, l2 = a :: b :: c :: r := by
      rcases l2 with _ | ⟨a, _ | ⟨b, _ | ⟨c, r⟩⟩⟩
      · simp only [List.length_nil] at h2; omega
      · simp only [List.length_cons, List.length_nil] at h2; omega
      · simp only [List.length_cons, List.length_nil] at h2; omega
      · exact ⟨a, b, c, r, rfl⟩
    rw [show 3 * (m + 1) = 3 * m + 1 + 1 + 1 by ring] at htake
    simp only [List.take_succ_cons, List.cons.injEq] at htake
    obtain ⟨rfl, rfl, rfl, hr⟩ := htake
    rw [show 4 * (m + 1) = 4 * m + 1 + 1 + 1 + 1 by ring]
    simp only [base64Encode, List.take_succ_cons, List.cons.injEq]
    refine ⟨trivial, trivial, trivial, trivial, ?_⟩
    apply ih
    · exact hr
    · simp only [List.length_cons] at h1; omega
    · simp only [List.length_cons] at h2; omega

/-! ## detectAIGeneratedImage: thresholds, verdict and confidence -/

/-- The sampled artifact percentages computed by the pixel loop of
`detectAIGeneratedImage` (`src/lib/ai-generation-detection.ts`, lines
403-413): each is a score divided by the sampled pixel count, times 100.
Every image input determines one such record, and the claim concerns only
the code from here on. -/
structure ArtifactPercentages where
  symmetry : ℚ
  uncanny : ℚ
  artificialTexture : ℚ
  impossibleLighting : ℚ
  impossibleReflection : ℚ
  digitalArtifact : ℚ
  sciFi : ℚ
  anime : ℚ
  fantasy : ℚ
  unrealisticColor : ℚ
  animalHumanHybrid : ℚ

/-- The boolean artifact flags of `detectAIGeneratedImage`. -/
structure ArtifactFlags where
  hasPerfectSymmetry : Bool
  hasUncannyFeatures : Bool
  hasArtificialTextures : Bool
  hasImpossibleLighting : Bool
  hasImpossibleReflections : Bool
  hasDigitalArtifacts : Bool
  hasSciFiElements : Bool
  hasAnimeFeatures : Bool
  hasFantasyElements : Bool
  hasUnrealisticColors : Bool
  hasAnimalHumanHybrids : Bool

/-- The threshold comparisons of lines 416-426. -/
def artifactFlags (p : ArtifactPercentages) : ArtifactFlags where
  hasPerfectSymmetry := decide (p.symmetry > 50)
  hasUncannyFeatures := decide (p.uncanny > 20)
  hasArtificialTextures := decide (p.artificialTexture > 40)
  hasImpossibleLighting := decide (p.impossibleLighting > 8)
  hasImpossibleReflections := decide (p.impossibleReflection > 12)
  hasDigitalArtifacts := decide (p.digitalArtifact > 20)
  hasSciFiElements := decide (p.sciFi > 15)
  hasAnimeFeatures := decide (p.anime > 12)
  hasFantasyElements := decide (p.fantasy > 12)
  hasUnrealisticColors := decide (p.unrealisticColor > 15)
  hasAnimalHumanHybrids := decide (p.animalHumanHybrid > 8)

/-- The artifact report list pushed in lines 429-440, in push order. -/
def detectedArtifactsOf (f : ArtifactFlags) : List String :=
  (if f.hasPerfectSymmetry then ["perfect symmetry"] else []) ++
  (if f.hasUncannyFeatures then ["uncanny valley features"] else []) ++
  (if f.hasArtificialTextures then ["artificial textures"] else []) ++
  (if f.hasImpossibleLighting then ["impossible lighting"] else []) ++
  (if f.hasImpossibleReflections then ["impossible reflections"] else []) ++
  (if f.hasDigitalArtifacts then ["digital artifacts"] else []) ++
  (if f.hasSciFiElements then ["sci-fi elements"] else []) ++
  (if f.hasAnimeFeatures then ["anime-style features"] else []) ++
  (if f.hasFantasyElements then ["fantasy elements"] else []) ++
  (if f.hasUnrealisticColors then ["unrealistic colors"] else []) ++
  (if f.hasAnimalHumanHybrids then ["animal-human hybrid features"] else [])

/-- The verdict disjunction of lines 447-455. -/
def isAIGeneratedOf (f : ArtifactFlags) : Bool :=
  decide (3 ≤ (detectedArtifactsOf f).length) ||
  (f.hasPerfectSymmetry && (f.hasUncannyFeatures || f.hasArtificialTextures)) ||
  (f.hasDigitalArtifacts && f.hasSciFiElements) ||
  (f.hasUncannyFeatures && f.hasArtificialTextures) ||
  f.hasAnimeFeatures ||
  f.hasFantasyElements ||
  f.hasAnimalHumanHybrids ||
  (f.hasUnrealisticColors && f.hasDigitalArtifacts && f.hasSciFiElements)

/-- One guarded `confidence += k` line of the accumulation. -/
def addIf (b : Bool) (k c : ℚ) : ℚ := if b then c + k else c

/-- The confidence accumulation of lines 458-477: a base of 70, one
increment per detected artifact (applied in source order, innermost
first), capped at 98; zero when the verdict is negative. -/
def confidenceOf (f : ArtifactFlags) : ℚ :=
  if isAIGeneratedOf f then
    min
      (addIf f.hasAnimalHumanHybrids 25
        (addIf f.hasUnrealisticColors 15
          (addIf f.hasFantasyElements 15
            (addIf f.hasAnimeFeatures 20
              (addIf f.hasSciFiElements 10
                (addIf f.hasDigitalArtifacts 10
                  (addIf f.hasImpossibleReflections 10
                    (addIf f.hasImpossibleLighting 10
                      (addIf f.hasArtificialTextures 10
                        (addIf f.hasUncannyFeatures 10
                          (addIf f.hasPerfectSymmetry 10 70)))))))))))
      98
  else 0

/-- Function `detectAIGeneratedImage` from the sampled percentages on: the verdict
and the confidence it returns. -/
def detectAIGeneratedImage (p : ArtifactPercentages) : Bool × ℚ :=
  (isAIGeneratedOf (artifactFlags p), confidenceOf (artifactFlags p))

/-! ## Random-fed analysis stubs and the display confidence -/

/-- Function `detectFace` from `src/lib/texture-analysis.ts` (lines 1241-1244): the
image data is ignored and a weighted coin is flipped on `Math.random()`,
passed here as the explicit `rand` input. -/
def detectFace (_imageData : List Nat) (_width _height : Nat) (rand : ℚ) :
    Bool :=
  decide (rand > 3 / 10)

/-- The display confidence of the upload POST handler (part_003, lines
196-197): the classifier confidence plus `Math.random() * 3 - 1.5`, clamped
into the interval from 0 to 100. -/
def displayConfidenceOf (confidence rand : ℚ) : ℚ :=
  min (max (confidence + (rand * 3 - 3 / 2)) 0) 100

/-! ## classifyImage error fallback -/

/-- The classifier result fields that the handler and the claims read. -/
structure ClassifierResult where
  isReal : Bool
  confidence : ℚ
  realScore : ℚ
  aiScore : ℚ
  detectedArtifacts : List String
  naturalElements : List String

/-- The catch-branch value of `classifyImage`
(`src/lib/advanced-image-classifier.ts`, lines 1152-1172). -/
def classifyImageErrorResult : ClassifierResult where
  isReal := false
  confidence := 70
  realScore := 30
  aiScore := 70
  detectedArtifacts := ["classification error"]
  naturalElements := []

/-- Function `classifyImage` as its try/catch skeleton: the outcome of the `try`
body (the whole scoring pipeline, which can throw) is the explicit input,
and the `catch` branch returns the fixed fallback record. -/
def classifyImage (body : Except String ClassifierResult) : ClassifierResult :=
  match body with
  | .ok r => r
  | .error _ => classifyImageErrorResult

/-! ## Stable-diffusion comparison and backend call fallbacks -/

/-- Result record of `generateStableDiffusionComparison`. -/
structure SDComparison where
  isLikelyAIGenerated : Bool
  confidence : ℚ
  similarityScore : ℚ
  matchedModels : List String
deriving DecidableEq

/-- The safe default `generateStableDiffusionComparison` substitutes when
the API call fails or any step throws
(`src/lib/stable-diffusion-integration.ts`, lines 49-58 and 79-89). -/
def sdDefaultResult : SDComparison where
  isLikelyAIGenerated := false
  confidence := 0
  similarityScore := 0
  matchedModels := []

/-- Function `generateStableDiffusionComparison`: the fetch outcome is the explicit
input (`.error` when the fetch or the JSON parse throws, `.ok flag` with the
value of `response.ok` otherwise); `rand` is the `Math.random()` sample the
source uses for the similarity score. -/
def generateStableDiffusionComparison (fetchOutcome : Except String Bool)
    (rand : ℚ) : SDComparison :=
  match fetchOutcome with
  | .error _ => sdDefaultResult
  | .ok ok =>
    if !ok then sdDefaultResult
    else
      let similarityScore := rand * 100
      { isLikelyAIGenerated := decide (similarityScore > 70)
        confidence :=
          if similarityScore > 70 then similarityScore
          else 100 - similarityScore
        similarityScore := similarityScore
        matchedModels :=
          if similarityScore > 70 then ["stable-diffusion-xl", "midjourney-v5"]
          else [] }

/-- The backend response fields the claims read; `none` models a JSON null
or a missing field. -/
structure BackendResponse where
  error : Option String
  is_real : Option Bool
  confidence : Option ℚ

/-- The all-URLs-failed object returned at the end of `sendToBackend`
(enhanced-detection module, part_002 lines 716-724). -/
def backendAllFailedResult : BackendResponse where
  error := some "Failed to connect to backend"
  is_real := none
  confidence := none

/-- Function `sendToBackend`: the backend URLs are tried in sequence; each attempt
either throws (`.error`) or returns a parsed response; the first success is
returned, and when every attempt fails the fixed error object with null
`is_real` and null `confidence` is returned. -/
def sendToBackend : List (Except String BackendResponse) → BackendResponse
  | [] => backendAllFailedResult
  | .ok r :: _ => r
  | .error _ :: rest => sendToBackend rest

/-! ## The status-check GET handler -/

/-- The fixed candidate URLs probed by the status-check GET handler
(part_003, lines 13-18). -/
def statusCheckUrls : List String :=
  ["http://localhost:5000/health", "http://127.0.0.1:5000/health",
   "http://localhost:5000/api/detect", "http://127.0.0.1:5000/api/detect"]

/-- The acceptance test `response.ok || response.status === 204` applied to
a probe that returned a status code. -/
def probeAccepted (status : Nat) : Bool :=
  (200 ≤ status && status ≤ 299) || status == 204

/-- The probe loop of the GET handler: stop at the first acceptable
response, otherwise record the failure and continue; `connected` stays
false when no probe is accepted. -/
def anyProbeConnected : List (Except String Nat) → Bool
  | [] => false
  | .ok s :: rest => if probeAccepted s then true else anyProbeConnected rest
  | .error _ :: rest => anyProbeConnected rest

/-- The status-check GET handler of part_003 (lines 8-85): the JSON status
field and the HTTP status code, as a function of the probe outcomes (one
per candidate URL; a timeout or network failure is an `.error`). -/
def statusCheckGET (outcomes : List (Except String Nat)) : String × Nat :=
  if anyProbeConnected outcomes then ("online", 200) else ("offline", 503)

/-! ## The upload POST handler -/

/-- The response fields of the stored `finalResult` that the claims read
(the source object carries further presentational fields). -/
structure StoredResult where
  isReal : Bool
  confidence : ℚ

/-- The parsed multipart form of the upload POST handler. -/
structure UploadForm where
  file : Option (List Nat)
  forceReanalyze : Bool
  useEnhanced : Bool
  confidenceThreshold : ℤ

/-- The classifier output the handler consumes (after the optional
borderline deep-analysis combination). -/
structure AnalysisOutcome where
  isReal : Bool
  confidence : ℚ
  realScore : ℚ
  aiScore : ℚ

/-- The four response shapes of the upload POST handler. -/
inductive UploadResponse where
  | noFile
  | cachedHit (result : Option StoredResult)
  | success (result : StoredResult)
  | errorFallback

/-- The HTTP status code of each response shape (400 for a missing file,
200 for the cached and success bodies, 500 for the catch-all fallback). -/
def respStatus : UploadResponse → Nat
  | .noFile => 400
  | .cachedHit _ => 200
  | .success _ => 200
  | .errorFallback => 500

/-- The `isReal` field of the JSON body, when the body carries one; the
catch-all fallback hardcodes `false`. -/
def respIsReal : UploadResponse → Option Bool
  | .noFile => none
  | .cachedHit r => r.map StoredResult.isReal
  | .success r => some r.isReal
  | .errorFallback => some false

/-- The `confidence` field of the JSON body, when the body carries one; the
catch-all fallback hardcodes 70. -/
def respConfidence : UploadResponse → Option ℚ
  | .noFile => none
  | .cachedHit r => r.map StoredResult.confidence
  | .success r => some r.confidence
  | .errorFallback => some 70

/-- The upload POST handler of part_003 (lines 87-334).  Every `await`ed
effect is an explicit input: `downstream` is the outcome of everything the
`try` block runs after the cache check (sharp metadata, the classifier
stages and their combination — `.error` when any of it throws, which the
`catch` turns into the fixed fallback), `rand` is the `Math.random()`
sample behind the display-confidence jitter. -/
def uploadPOST (form : UploadForm) (cache : JsMap StoredResult)
    (downstream : Except String AnalysisOutcome) (rand : ℚ) :
    UploadResponse × JsMap StoredResult :=
  match form.file with
  | none => (.noFile, cache)
  | some buffer =>
    let imageHash := generateImageHash buffer
    if !form.forceReanalyze && hasAnalysisInCache cache imageHash then
      (.cachedHit (getAnalysisFromCache cache imageHash), cache)
    else
      match downstream with
      | .error _ => (.errorFallback, cache)
      | .ok analysisResult =>
        let finalResult : StoredResult :=
          { isReal := analysisResult.isReal
            confidence := displayConfidenceOf analysisResult.confidence rand }
        (.success finalResult, storeAnalysisInCache cache imageHash finalResult)

/-! ## Theorems: the analysis cache (C2, C3) -/

theorem storeAnalysisInCache_evict (cache : JsMap α) (k : String) (v : α)
    (hlen : cache.length = 100) (hhas : mapHas cache k = false) :
    storeAnalysisInCache cache k v = cache.tail ++ [(k, v)] := by
  obtain ⟨p, rest, rfl⟩ : ∃ p rest, cache = p :: rest := by
    rcases cache with _ | ⟨p, rest⟩
    · simp at hlen
    · exact ⟨p, rest, rfl⟩
  have hset : mapSet (p :: rest) k v = p :: (rest ++ [(k, v)]) := by
    unfold mapSet
    rw [hhas]
    simp
  simp only [storeAnalysisInCache, hset, List.head?_cons]
  have hlen2 : (p :: (rest ++ [(k, v)])).length = 101 := by
    simp only [List.length_cons, List.length_append, List.length_nil] at hlen ⊢
    omega
  rw [if_pos (by rw [hlen2]; norm_num)]
  unfold mapDelete
  rw [List.eraseP_cons_of_pos (by simp)]
  simp

theorem storeAnalysisInCache_of_small (cache : JsMap α) (k : String) (v : α)
    (h : (mapSet cache k v).length ≤ 100) :
    storeAnalysisInCache cache k v = mapSet cache k v := by
  simp only [storeAnalysisInCache]
  rw [if_neg (by omega)]

theorem mapHas_of_mapGet (m : JsMap α) (k : String) (v : α)
    (h : mapGet m k = some v) : mapHas m k = true := by
  unfold mapGet at h
  unfold mapHas
  rcases hf : m.find? (fun p => p.1 == k) with _ | p
  · rw [hf] at h; simp at h
  · have hm := List.mem_of_find?_eq_some hf
    have hp := List.find?_some hf
    rw [List.any_eq_true]
    exact ⟨p, hm, hp⟩

/-- C2: starting from any reachable cache state (the 100-entry bound is the
cache invariant), `storeAnalysisInCache` leaves at most 100 entries; storing
a 101st distinct key removes exactly the first-inserted entry, keeps every
other entry unchanged (the result is the tail of the old cache followed by
the new pair) and returns the size to 100; and no entry is ever evicted
when the cache after the `set` holds 100 or fewer entries. -/
theorem c2_cache_capacity (cache : JsMap α) (k : String) (v : α)
    (hlen : cache.length ≤ 100) :
    (storeAnalysisInCache cache k v).length ≤ 100 ∧
    (cache.length = 100 → mapHas cache k = false →
      storeAnalysisInCache cache k v = cache.tail ++ [(k, v)] ∧
      (storeAnalysisInCache cache k v).length = 100) ∧
    ((mapSet cache k v).length ≤ 100 →
      storeAnalysisInCache cache k v = mapSet cache k v) := by
  refine ⟨?_, ?_, storeAnalysisInCache_of_small cache k v⟩
  · by_cases hset : (mapSet cache k v).length ≤ 100
    · rw [storeAnalysisInCache_of_small cache k v hset]
      exact hset
    · have h1 := length_mapSet cache k v
      have hhas : mapHas cache k = false := by
        by_contra hc
        rw [Bool.not_eq_false] at hc
        rw [h1, if_pos hc] at hset
        omega
      rw [h1, if_neg (by simp [hhas])] at hset
      have hlen100 : cache.length = 100 := by omega
      rw [storeAnalysisInCache_evict cache k v hlen100 hhas]
      rcases cache with _ | ⟨p, rest⟩
      · simp at hlen100
      · simp only [List.length_cons] at hlen100
        simp only [List.tail_cons, List.length_append, List.length_cons,
          List.length_nil]
        omega
  · intro h100 hhas
    refine ⟨storeAnalysisInCache_evict cache k v h100 hhas, ?_⟩
    rw [storeAnalysisInCache_evict cache k v h100 hhas]
    rcases cache with _ | ⟨p, rest⟩
    · simp at h100
    · simp only [List.length_cons] at h100
      simp only [List.tail_cons, List.length_append, List.length_cons,
        List.length_nil]
      omega

theorem c2_cache_capacity_witness :
    ((List.range 100).map fun i => (toString i, (0 : Nat))).length ≤ 100 ∧
    (storeAnalysisInCache ((List.range 100).map fun i => (toString i, (0 : Nat)))
      "k" 1).length ≤ 100 := by
  have hlen : ((List.range 100).map fun i => (toString i, (0 : Nat))).length ≤ 100 := by
    simp
  exact ⟨hlen, (c2_cache_capacity _ "k" 1 hlen).1⟩

/-- C3: for any reachable cache state (the 100-entry bound is the cache
invariant), storing a result under a hash and immediately retrieving it
returns exactly that result, and the membership test answers true —
including when the store evicted the oldest entry. -/
theorem c3_store_then_get (cache : JsMap α) (h : String) (r : α)
    (hlen : cache.length ≤ 100) :
    getAnalysisFromCache (storeAnalysisInCache cache h r) h = some r ∧
    hasAnalysisInCache (storeAnalysisInCache cache h r) h = true := by
  have hget : getAnalysisFromCache (storeAnalysisInCache cache h r) h = some r := by
    by_cases hset : (mapSet cache h r).length ≤ 100
    · rw [storeAnalysisInCache_of_small cache h r hset]
      exact mapGet_mapSet_self cache h r
    · have h1 := length_mapSet cache h r
      have hhas : mapHas cache h = false := by
        by_contra hc
        rw [Bool.not_eq_false] at hc
        rw [h1, if_pos hc] at hset
        omega
      rw [h1, if_neg (by simp [hhas])] at hset
      have hlen100 : cache.length = 100 := by omega
      rw [storeAnalysisInCache_evict cache h r hlen100 hhas]
      unfold getAnalysisFromCache mapGet
      rw [List.find?_append]
      have htail : (cache.tail.find? fun p => p.1 == h) = none := by
        rw [List.find?_eq_none]
        intro x hx hbeq
        have hxc : x ∈ cache := List.mem_of_mem_tail hx
        have hany : cache.any (fun p => p.1 == h) = true :=
          List.any_eq_true.mpr ⟨x, hxc, hbeq⟩
        unfold mapHas at hhas
        rw [hany] at hhas
        exact Bool.true_eq_false.mp hhas
      rw [htail]
      simp
  exact ⟨hget, mapHas_of_mapGet _ _ _ hget⟩

theorem c3_store_then_get_witness :
    getAnalysisFromCache (storeAnalysisInCache ([] : JsMap Nat) "h" 5) "h" = some 5 ∧
    hasAnalysisInCache (storeAnalysisInCache ([] : JsMap Nat) "h" 5) "h" = true :=
  c3_store_then_get [] "h" 5 (by simp)

/-! ## Theorems: the image hash (C5) -/

/-- C5: `generateImageHash` is a function of only the first 1000 base64
characters of the buffer — two buffers whose base64 renderings agree on
those characters hash identically, and in particular any two buffers of at
least 750 bytes sharing their first 750 bytes are cache-indistinguishable.
Determinism on a fixed buffer is immediate since the embedding is a pure
function of the buffer. -/
theorem c5_hash_prefix_indistinguishable (b1 b2 : List Nat)
    (h : (base64Encode b1).take 1000 = (base64Encode b2).take 1000 ∨
      (b1.take 750 = b2.take 750 ∧ 750 ≤ b1.length ∧ 750 ≤ b2.length)) :
    generateImageHash b1 = generateImageHash b2 := by
  have key : (base64Encode b1).take 1000 = (base64Encode b2).take 1000 := by
    rcases h with h | ⟨hpre, h1, h2⟩
    · exact h
    · have := base64Encode_take 250 b1 b2 (by norm_num [hpre])
        (by norm_num [h1]) (by norm_num [h2])
      norm_num at this
      exact this
  unfold generateImageHash
  rw [key]

theorem c5_hash_prefix_witness :
    generateImageHash (List.replicate 750 0 ++ [1]) =
      generateImageHash (List.replicate 750 0 ++ [2]) := by
  apply c5_hash_prefix_indistinguishable
  refine Or.inr ⟨?_, ?_, ?_⟩
  · rw [List.take_append_of_le_length (by rw [List.length_replicate]),
      List.take_append_of_le_length (by rw [List.length_replicate])]
  · rw [List.length_append, List.length_replicate]
    norm_num
  · rw [List.length_append, List.length_replicate]
    norm_num

/-! ## Theorems: non-determinism of the pipeline (C4) -/

/-- C4: the classification output is not a pure function of the image.
With the random source modelled as the extra input the code reads, there
are two valid `Math.random()` samples on which `detectFace` gives opposite
verdicts on the very same (here empty) image, and on which the handler's
display confidence for the same classifier confidence of 50 differs. -/
theorem c4_not_pure_function_of_image :
    ∃ r1 r2 : ℚ, 0 ≤ r1 ∧ r1 < 1 ∧ 0 ≤ r2 ∧ r2 < 1 ∧
      detectFace [] 0 0 r1 ≠ detectFace [] 0 0 r2 ∧
      displayConfidenceOf 50 r1 ≠ displayConfidenceOf 50 r2 := by
  refine ⟨1 / 2, 0, by norm_num, by norm_num, by norm_num, by norm_num, ?_, ?_⟩
  · have h1 : detectFace [] 0 0 (1 / 2) = true := by
      unfold detectFace
      rw [decide_eq_true_eq]
      norm_num
    have h2 : detectFace [] 0 0 0 = false := by
      unfold detectFace
      rw [decide_eq_false_iff_not]
      norm_num
    rw [h1, h2]
    simp
  · unfold displayConfidenceOf
    norm_num [min_def, max_def]

/-! ## Theorems: detectAIGeneratedImage confidence bounds (C10) -/

theorem le_addIf {x c : ℚ} (b : Bool) (k : ℚ) (hk : 0 ≤ k) (hc : x ≤ c) :
    x ≤ addIf b k c := by
  unfold addIf
  cases b
  · simpa using hc
  · simpa using hc.trans (by linarith)

theorem confidenceOf_bounds (f : ArtifactFlags) :
    (isAIGeneratedOf f = true → 70 ≤ confidenceOf f ∧ confidenceOf f ≤ 98) ∧
    (isAIGeneratedOf f = false → confidenceOf f = 0) := by
  constructor
  · intro hai
    unfold confidenceOf
    rw [if_pos hai]
    constructor
    · refine le_min ?_ (by norm_num)
      apply le_addIf _ _ (by norm_num)
      apply le_addIf _ _ (by norm_num)
      apply le_addIf _ _ (by norm_num)
      apply le_addIf _ _ (by norm_num)
      apply le_addIf _ _ (by norm_num)
      apply le_addIf _ _ (by norm_num)
      apply le_addIf _ _ (by norm_num)
      apply le_addIf _ _ (by norm_num)
      apply le_addIf _ _ (by norm_num)
      apply le_addIf _ _ (by norm_num)
      apply le_addIf _ _ (by norm_num)
      exact le_refl 70
    · exact min_le_right _ _
  · intro hai
    unfold confidenceOf
    rw [if_neg (by simp [hai])]

/-- C10: for every artifact-percentage record an image can induce, the
confidence returned by `detectAIGeneratedImage` is exactly 0 when its
verdict is negative, and lies between 70 and 98 inclusive when the verdict
is positive. -/
theorem c10_detect_confidence_range (p : ArtifactPercentages) :
    ((detectAIGeneratedImage p).1 = true →
      70 ≤ (detectAIGeneratedImage p).2 ∧ (detectAIGeneratedImage p).2 ≤ 98) ∧
    ((detectAIGeneratedImage p).1 = false → (detectAIGeneratedImage p).2 = 0) := by
  have h1 : (detectAIGeneratedImage p).1 = isAIGeneratedOf (artifactFlags p) := by
    simp only [detectAIGeneratedImage]
  have h2 : (detectAIGeneratedImage p).2 = confidenceOf (artifactFlags p) := by
    simp only [detectAIGeneratedImage]
  rw [h1, h2]
  exact confidenceOf_bounds (artifactFlags p)

theorem c10_detect_confidence_range_witness :
    ((detectAIGeneratedImage ⟨0, 0, 0, 0, 0, 0, 0, 13, 0, 0, 0⟩).1 = true →
      70 ≤ (detectAIGeneratedImage ⟨0, 0, 0, 0, 0, 0, 0, 13, 0, 0, 0⟩).2 ∧
        (detectAIGeneratedImage ⟨0, 0, 0, 0, 0, 0, 0, 13, 0, 0, 0⟩).2 ≤ 98) ∧
    ((detectAIGeneratedImage ⟨0, 0, 0, 0, 0, 0, 0, 13, 0, 0, 0⟩).1 = false →
      (detectAIGeneratedImage ⟨0, 0, 0, 0, 0, 0, 0, 13, 0, 0, 0⟩).2 = 0) :=
  c10_detect_confidence_range ⟨0, 0, 0, 0, 0, 0, 0, 13, 0, 0, 0⟩

/-! ## Theorems: upload handler error fallback (C1) and missing file (C6) -/

/-- C1: when the downstream analysis of the upload POST handler throws (on
any request that actually reaches the analysis, i.e. does not answer from
the cache), the handler answers with the fixed fallback body whose `isReal`
is false and whose `confidence` is 70, rather than surfacing the error with
an empty body; and `classifyImage` itself returns the same fallback values
(`isReal` false, `confidence` 70) whenever any internal step of its body
throws. -/
theorem c1_error_fallback (form : UploadForm) (cache : JsMap StoredResult)
    (file : List Nat) (e msg : String) (rand : ℚ)
    (hfile : form.file = some file)
    (hpath : form.forceReanalyze = true ∨
      hasAnalysisInCache cache (generateImageHash file) = false) :
    (uploadPOST form cache (.error e) rand).1 = .errorFallback ∧
    respIsReal (uploadPOST form cache (.error e) rand).1 = some false ∧
    respConfidence (uploadPOST form cache (.error e) rand).1 = some 70 ∧
    (classifyImage (.error msg)).isReal = false ∧
    (classifyImage (.error msg)).confidence = 70 := by
  have hresp : (uploadPOST form cache (.error e) rand).1 = .errorFallback := by
    rcases hpath with hf | hc
    · simp [uploadPOST, hfile, hf]
    · simp [uploadPOST, hfile, hc]
  refine ⟨hresp, ?_, ?_, rfl, rfl⟩
  · rw [hresp]; rfl
  · rw [hresp]; rfl

theorem c1_error_fallback_witness :
    (uploadPOST ⟨some [], true, true, 65⟩ [] (.error "analysis failed") 0).1
        = .errorFallback ∧
    respIsReal
        (uploadPOST ⟨some [], true, true, 65⟩ [] (.error "analysis failed") 0).1
        = some false ∧
    respConfidence
        (uploadPOST ⟨some [], true, true, 65⟩ [] (.error "analysis failed") 0).1
        = some 70 ∧
    (classifyImage (.error "boom")).isReal = false ∧
    (classifyImage (.error "boom")).confidence = 70 :=
  c1_error_fallback ⟨some [], true, true, 65⟩ [] [] "analysis failed" "boom" 0
    rfl (Or.inl rfl)

/-- C6: a request whose form data carries no file field is answered with
the 400 error body, whose JSON carries no verdict and no confidence, and
the handler performs no analysis and no cache mutation: for every
downstream outcome the result is the same and the cache comes back
unchanged. -/
theorem c6_no_file_400 (form : UploadForm) (cache : JsMap StoredResult)
    (downstream : Except String AnalysisOutcome) (rand : ℚ)
    (h : form.file = none) :
    uploadPOST form cache downstream rand = (.noFile, cache) ∧
    respStatus .noFile = 400 ∧
    respIsReal .noFile = none ∧
    respConfidence .noFile = none := by
  refine ⟨?_, rfl, rfl, rfl⟩
  simp [uploadPOST, h]

theorem c6_no_file_400_witness :
    uploadPOST ⟨none, false, true, 65⟩ [] (.ok ⟨true, 80, 0, 0⟩) 0
        = (.noFile, []) ∧
    respStatus .noFile = 400 ∧
    respIsReal .noFile = none ∧
    respConfidence .noFile = none :=
  c6_no_file_400 ⟨none, false, true, 65⟩ [] (.ok ⟨true, 80, 0, 0⟩) 0 rfl

/-! ## Theorems: status-check endpoint offline report (C7) -/

/-- C7: when every probe of the status-check GET handler fails — throws,
times out, or returns a status that is neither ok (2xx) nor 204 — the
handler reports status "offline" together with HTTP 503, a non-2xx code. -/
theorem c7_all_probes_fail_offline (outcomes : List (Except String Nat))
    (h : ∀ o ∈ outcomes, ∀ s, o = .ok s → probeAccepted s = false) :
    statusCheckGET outcomes = ("offline", 503) ∧
    ((statusCheckGET outcomes).2 < 200 ∨ 299 < (statusCheckGET outcomes).2) := by
  have hconn : anyProbeConnected outcomes = false := by
    induction outcomes with
    | nil => rfl
    | cons o rest ih =>
      have hrest : anyProbeConnected rest = false :=
        ih fun o ho s hs => h o (List.mem_cons_of_mem _ ho) s hs
      cases o with
      | error e => simpa [anyProbeConnected] using hrest
      | ok s =>
        have hs := h (.ok s) (List.mem_cons_self _ _) s rfl
        simp [anyProbeConnected, hs, hrest]
  have hg : statusCheckGET outcomes = ("offline", 503) := by
    unfold statusCheckGET
    rw [hconn]
    simp
  refine ⟨hg, ?_⟩
  rw [hg]
  norm_num

theorem c7_all_probes_fail_offline_witness :
    statusCheckGET [.error "refused", .error "refused", .ok 500, .error "timeout"]
        = ("offline", 503) ∧
    ((statusCheckGET
        [.error "refused", .error "refused", .ok 500, .error "timeout"]).2 < 200 ∨
      299 < (statusCheckGET
        [.error "refused", .error "refused", .ok 500, .error "timeout"]).2) := by
  apply c7_all_probes_fail_offline
  intro o ho s hs
  simp only [List.mem_cons, List.not_mem_nil, or_false] at ho
  rcases ho with rfl | rfl | rfl | rfl
  · exact absurd hs (by simp)
  · exact absurd hs (by simp)
  · injection hs with h2
    subst h2
    decide
  · exact absurd hs (by simp)

/-! ## Theorems: confidence range of the upload response (C8) -/

theorem displayConfidenceOf_mem (confidence rand : ℚ) :
    0 ≤ displayConfidenceOf confidence rand ∧
      displayConfidenceOf confidence rand ≤ 100 := by
  unfold displayConfidenceOf
  exact ⟨le_min (le_max_right _ _) (by norm_num), min_le_right _ _⟩

theorem mem_storeAnalysisInCache (cache : JsMap α) (k : String) (v : α)
    (p : String × α) (hp : p ∈ storeAnalysisInCache cache k v) :
    p ∈ cache ∨ p = (k, v) := by
  have hp2 : p ∈ mapSet cache k v := by
    simp only [storeAnalysisInCache] at hp
    split at hp
    · split at hp
      · exact (List.eraseP_sublist _).subset hp
      · exact hp
    · exact hp
  exact mem_mapSet cache k v p hp2

/-- C8: assuming every cached entry carries a confidence between 0 and 100
(the invariant the handler itself maintains, restated for the new cache in
the second conjunct), the confidence field of the upload POST response is
between 0 and 100 inclusive on every path: the clamped jitter on the
success path, a previously stored value on the cached path, and the fixed
70 on the error path. -/
theorem c8_confidence_range (form : UploadForm) (cache : JsMap StoredResult)
    (downstream : Except String AnalysisOutcome) (rand : ℚ)
    (hcache : ∀ p ∈ cache, 0 ≤ p.2.confidence ∧ p.2.confidence ≤ 100) :
    (∀ c, respConfidence (uploadPOST form cache downstream rand).1 = some c →
      0 ≤ c ∧ c ≤ 100) ∧
    (∀ p ∈ (uploadPOST form cache downstream rand).2,
      0 ≤ p.2.confidence ∧ p.2.confidence ≤ 100) := by
  rcases hfile : form.file with _ | buffer
  · have heq : uploadPOST form cache downstream rand = (.noFile, cache) := by
      simp [uploadPOST, hfile]
    rw [heq]
    refine ⟨?_, hcache⟩
    intro c hc
    simp [respConfidence] at hc
  · by_cases hhit :
      (!form.forceReanalyze && hasAnalysisInCache cache (generateImageHash buffer)) = true
    · have heq : uploadPOST form cache downstream rand =
          (.cachedHit (getAnalysisFromCache cache (generateImageHash buffer)), cache) := by
        simp [uploadPOST, hfile, hhit]
      rw [heq]
      refine ⟨?_, hcache⟩
      intro c hc
      rcases hget : getAnalysisFromCache cache (generateImageHash buffer) with _ | st
      · rw [hget] at hc
        simp [respConfidence] at hc
      · rw [hget] at hc
        simp only [respConfidence, Option.map_some', Option.some_inj] at hc
        obtain ⟨q, hq, hqe⟩ : ∃ q ∈ cache, q.2 = st := by
          unfold getAnalysisFromCache mapGet at hget
          rcases hf : cache.find? (fun p => p.1 == generateImageHash buffer) with _ | q
          · rw [hf] at hget; simp at hget
          · rw [hf] at hget
            simp only [Option.map_some', Option.some_inj] at hget
            exact ⟨q, List.mem_of_find?_eq_some hf, hget⟩
        have hb := hcache q hq
        rw [hqe] at hb
        rw [← hc]
        exact hb
    · rw [Bool.not_eq_true] at hhit
      cases downstream with
      | error e =>
        have heq : uploadPOST form cache (.error e) rand = (.errorFallback, cache) := by
          simp [uploadPOST, hfile, hhit]
        rw [heq]
        refine ⟨?_, hcache⟩
        intro c hc
        simp only [respConfidence, Option.some_inj] at hc
        rw [← hc]
        norm_num
      | ok ana =>
        have heq : uploadPOST form cache (.ok ana) rand =
            (.success ⟨ana.isReal, displayConfidenceOf ana.confidence rand⟩,
              storeAnalysisInCache cache (generateImageHash buffer)
                ⟨ana.isReal, displayConfidenceOf ana.confidence rand⟩) := by
          simp [uploadPOST, hfile, hhit]
        rw [heq]
        constructor
        · intro c hc
          simp only [respConfidence, Option.some_inj] at hc
          rw [← hc]
          exact displayConfidenceOf_mem ana.confidence rand
        · intro p hp
          rcases mem_storeAnalysisInCache cache _ _ p hp with h | h
          · exact hcache p h
          · rw [h]
            exact displayConfidenceOf_mem ana.confidence rand

theorem c8_confidence_range_witness :
    respConfidence (uploadPOST ⟨some [], true, true, 65⟩
        [("h", ⟨true, 50⟩)] (.ok ⟨true, 80, 0, 0⟩) (1 / 2)).1 = some 80 ∧
    (∀ c, respConfidence (uploadPOST ⟨some [], true, true, 65⟩
        [("h", ⟨true, 50⟩)] (.ok ⟨true, 80, 0, 0⟩) (1 / 2)).1 = some c →
      0 ≤ c ∧ c ≤ 100) ∧
    (∀ p ∈ (uploadPOST ⟨some [], true, true, 65⟩
        [("h", ⟨true, 50⟩)] (.ok ⟨true, 80, 0, 0⟩) (1 / 2)).2,
      0 ≤ p.2.confidence ∧ p.2.confidence ≤ 100) := by
  have hinv : ∀ p ∈ ([("h", ⟨true, 50⟩)] : JsMap StoredResult),
      0 ≤ p.2.confidence ∧ p.2.confidence ≤ 100 := by
    intro p hp
    simp only [List.mem_singleton] at hp
    subst hp
    exact ⟨by norm_num, by norm_num⟩
  have hmain := c8_confidence_range ⟨some [], true, true, 65⟩
    [("h", ⟨true, 50⟩)] (.ok ⟨true, 80, 0, 0⟩) (1 / 2) hinv
  refine ⟨?_, hmain.1, hmain.2⟩
  have h1 : (uploadPOST ⟨some [], true, true, 65⟩
      [("h", ⟨true, 50⟩)] (.ok ⟨true, 80, 0, 0⟩) (1 / 2)).1
      = .success ⟨true, displayConfidenceOf 80 (1 / 2)⟩ := by
    simp [uploadPOST]
  rw [h1]
  simp only [respConfidence, Option.some_inj]
  unfold displayConfidenceOf
  norm_num [min_def, max_def]

/-! ## Theorems: service-call failure fallbacks (C9) -/

theorem sendToBackend_all_failed (attempts : List (Except String BackendResponse))
    (hfail : ∀ a ∈ attempts, ∃ m, a = Except.error m) :
    sendToBackend attempts = backendAllFailedResult := by
  induction attempts with
  | nil => rfl
  | cons a rest ih =>
    obtain ⟨m, rfl⟩ := hfail a (List.mem_cons_self _ _)
    simp only [sendToBackend]
    exact ih fun x hx => hfail x (List.mem_cons_of_mem _ hx)

/-- C9: a failing sub-analysis or outbound call never propagates its error:
`generateStableDiffusionComparison` returns the zeroed safe default both
when the fetch throws and when the response is not ok, and `sendToBackend`
returns (rather than throws) the error object with null `is_real` and null
`confidence` when every backend URL attempt fails. -/
theorem c9_service_call_fallbacks (e : String) (rand : ℚ)
    (attempts : List (Except String BackendResponse))
    (hfail : ∀ a ∈ attempts, ∃ m, a = Except.error m) :
    generateStableDiffusionComparison (.error e) rand = sdDefaultResult ∧
    generateStableDiffusionComparison (.ok false) rand = sdDefaultResult ∧
    sendToBackend attempts = backendAllFailedResult ∧
    backendAllFailedResult.is_real = none ∧
    backendAllFailedResult.confidence = none :=
  ⟨rfl, rfl, sendToBackend_all_failed attempts hfail, rfl, rfl⟩

theorem c9_service_call_fallbacks_witness :
    generateStableDiffusionComparison (.error "api error") 0 = sdDefaultResult ∧
    generateStableDiffusionComparison (.ok false) 0 = sdDefaultResult ∧
    sendToBackend [.error "refused", .error "timeout"] = backendAllFailedResult ∧
    backendAllFailedResult.is_real = none ∧
    backendAllFailedResult.confidence = none := by
  apply c9_service_call_fallbacks
  intro a ha
  simp only [List.mem_cons, List.not_mem_nil, or_false] at ha
  rcases ha with rfl | rfl
  · exact ⟨"refused", rfl⟩
  · exact ⟨"timeout", rfl⟩
